import Mathlib

/-!
Verification of the session-scoped multi-transport proxy in
`server/src/logger.ts` (the express proxy server): header projection
(`getHttpHeaders`), in-place header-bag update (`updateHeadersInPlace`),
the auth middleware (`authMiddleware`), the origin/auth middleware chains
of every route, the stdio stderr classifier, the session tracking tables
(`webAppTransports`, `serverTransports`, `sessionHeaderHolders`) and the
DELETE `/mcp` termination handler.

Strings are modelled as Lean `String`, with all character operations
implemented over `String.data` so every definition reduces in the kernel.
The source runs on Node: incoming header names are lowercased by Node's
HTTP parser, and repeated headers arrive as (non-empty) string arrays.
-/

/-! ## Character and string utilities (ASCII semantics of the JS operations used) -/

/-- ASCII lowercasing of one character (`String.prototype.toLowerCase` on the
ASCII range, the only range the source compares against). -/
def jsLowerChar (c : Char) : Char :=
  if 65 ≤ c.toNat ∧ c.toNat ≤ 90 then Char.ofNat (c.toNat + 32) else c

/-- ASCII uppercasing of one character (`String.prototype.toUpperCase` on the
ASCII range). -/
def jsUpperChar (c : Char) : Char :=
  if 97 ≤ c.toNat ∧ c.toNat ≤ 122 then Char.ofNat (c.toNat - 32) else c

/-- `s.toLowerCase()` -/
def jsToLower (s : String) : String := String.mk (s.data.map jsLowerChar)

/-- `s.toUpperCase()` -/
def jsToUpper (s : String) : String := String.mk (s.data.map jsUpperChar)

/-- Whitespace trimmed by `String.prototype.trim` (the source only ever meets
spaces, tabs, CR and LF on stderr lines). -/
def jsIsSpace (c : Char) : Bool := c = ' ' ∨ c = '\t' ∨ c = '\n' ∨ c = '\r'

/-- `s.trim()` -/
def jsTrim (s : String) : String :=
  String.mk (((s.data.dropWhile jsIsSpace).reverse.dropWhile jsIsSpace).reverse)

/-- Does the character list contain `sub` as a contiguous run
(`String.prototype.includes`)? -/
def charsIncludes (sub : List Char) : List Char → Bool
  | [] => sub.isPrefixOf []
  | c :: cs => sub.isPrefixOf (c :: cs) || charsIncludes sub cs

/-- `s.includes(sub)` -/
def jsIncludes (s sub : String) : Bool := charsIncludes sub.data s.data

/-- `s.startsWith(p)` -/
def jsStartsWith (s p : String) : Bool := p.data.isPrefixOf s.data

/-- `s.substring(n)` for an ASCII offset (used only to strip `"Bearer "`). -/
def jsDrop (s : String) (n : Nat) : String := String.mk (s.data.drop n)

/-- UTF-8 encoding of one scalar value, as `Buffer.from(string)` produces. -/
def utf8EncodeChar (c : Char) : List Nat :=
  let n := c.toNat
  if n < 128 then [n]
  else if n < 2048 then [192 + n / 64, 128 + n % 64]
  else if n < 65536 then [224 + n / 4096, 128 + (n / 64) % 64, 128 + n % 64]
  else [240 + n / 262144, 128 + (n / 4096) % 64, 128 + (n / 64) % 64, 128 + n % 64]

/-- The byte content of `Buffer.from(s)`: UTF-8 bytes of the string. -/
def utf8Bytes (s : String) : List Nat := (s.data.map utf8EncodeChar).flatten

/-! ## Header objects

`req.headers` is a JS object whose values are strings or string arrays
(repeated headers); the computed forwardable set is a plain
string-to-string object. A JS object is an insertion-ordered association
list with unique keys; assigning to an existing key updates it in place. -/

/-- A raw header value as Node delivers it: a string, or an array for a
repeated header (Node never produces an empty array). -/
inductive HVal where
  | str (s : String)
  | arr (vs : List String)
deriving DecidableEq

/-- The inbound request's `req.headers` object. -/
abbrev ReqHeaders := List (String × HVal)

/-- A plain string-valued headers object (`Record<string, string>`). -/
abbrev HeaderObj := List (String × String)

/-- JS property read `req.headers[k]` (`undefined` becomes `none`). -/
def hget (req : ReqHeaders) (k : String) : Option HVal :=
  (req.find? (fun p => p.1 = k)).map (fun p => p.2)

/-- JS property read on a string-valued object. -/
def lookupStr (m : HeaderObj) (k : String) : Option String :=
  (m.find? (fun p => p.1 = k)).map (fun p => p.2)

/-- JS property write `m[k] = v`: updates an existing key in place, else
appends, preserving insertion order. -/
def objSet (m : HeaderObj) (k v : String) : HeaderObj :=
  if m.any (fun p => p.1 = k) then
    m.map (fun p => if p.1 = k then (k, v) else p)
  else m ++ [(k, v)]

/-! ## `getHttpHeaders` (header projection) -/

/-- One iteration of the `for (const key in req.headers)` loop of
`getHttpHeaders`: forwards `mcp-*`, `authorization` and `last-event-id`
headers, excluding `x-mcp-proxy-auth` and `mcp-session-id`; array values
contribute their last element (`value.at(-1)`). -/
def forwardMain (acc : HeaderObj) (kv : String × HVal) : HeaderObj :=
  let lowerKey := jsToLower kv.1
  if jsStartsWith lowerKey "mcp-" || lowerKey = "authorization" ||
      lowerKey = "last-event-id" then
    if ¬ lowerKey = "x-mcp-proxy-auth" ∧ ¬ lowerKey = "mcp-session-id" then
      match kv.2 with
      | HVal.str v => objSet acc kv.1 v
      | HVal.arr vs =>
        match vs.getLast? with
        | some lastValue => objSet acc kv.1 lastValue
        | none => acc
    else acc
  else acc

/-- The `x-custom-auth-header` branch of `getHttpHeaders`: the meta-header
names one request header to forward under its declared name. -/
def customSingle (req : ReqHeaders) (headers : HeaderObj) : HeaderObj :=
  match hget req "x-custom-auth-header" with
  | some (HVal.str customAuthHeaderName) =>
    let lowerCaseHeaderName := jsToLower customAuthHeaderName
    match hget req lowerCaseHeaderName with
    | some (HVal.str v) => objSet headers customAuthHeaderName v
    | some (HVal.arr vs) =>
      match vs.getLast? with
      | some lastValue => objSet headers customAuthHeaderName lastValue
      | none => headers
    | none => headers
  | _ => headers

/-- Skip JSON whitespace. -/
def jsonSkipWs : List Char → List Char
  | c :: cs => if c = ' ' ∨ c = '\t' ∨ c = '\n' ∨ c = '\r' then jsonSkipWs cs else c :: cs
  | [] => []

/-- Value of a hex digit. -/
def hexVal (c : Char) : Option Nat :=
  let n := c.toNat
  if 48 ≤ n ∧ n ≤ 57 then some (n - 48)
  else if 97 ≤ n ∧ n ≤ 102 then some (n - 87)
  else if 65 ≤ n ∧ n ≤ 70 then some (n - 55)
  else none

/-- Parse the remainder of a JSON string literal (after the opening quote),
returning the decoded string and the characters after the closing quote. -/
def parseJsonStringChars (acc : List Char) : List Char → Option (String × List Char)
  | [] => none
  | '"' :: rest => some (String.mk acc.reverse, rest)
  | '\\' :: 'n' :: rest => parseJsonStringChars ('\n' :: acc) rest
  | '\\' :: 't' :: rest => parseJsonStringChars ('\t' :: acc) rest
  | '\\' :: 'r' :: rest => parseJsonStringChars ('\r' :: acc) rest
  | '\\' :: 'b' :: rest => parseJsonStringChars (Char.ofNat 8 :: acc) rest
  | '\\' :: 'f' :: rest => parseJsonStringChars (Char.ofNat 12 :: acc) rest
  | '\\' :: '"' :: rest => parseJsonStringChars ('"' :: acc) rest
  | '\\' :: '\\' :: rest => parseJsonStringChars ('\\' :: acc) rest
  | '\\' :: '/' :: rest => parseJsonStringChars ('/' :: acc) rest
  | '\\' :: 'u' :: h1 :: h2 :: h3 :: h4 :: rest =>
    match hexVal h1, hexVal h2, hexVal h3, hexVal h4 with
    | some a, some b, some c, some d =>
      let n := ((a * 16 + b) * 16 + c) * 16 + d
      if 55296 ≤ n ∧ n ≤ 57343 then none
      else parseJsonStringChars (Char.ofNat n :: acc) rest
    | _, _, _, _ => none
  | '\\' :: _ => none
  | c :: rest => parseJsonStringChars (c :: acc) rest

/-- Parse the items of a JSON array of strings after the first element. -/
def parseJsonArrayItems (fuel : Nat) (acc : List String) (cs : List Char) :
    Option (List String) :=
  match fuel with
  | 0 => none
  | fuel + 1 =>
    match jsonSkipWs cs with
    | ']' :: rest => if (jsonSkipWs rest).isEmpty then some acc.reverse else none
    | ',' :: rest =>
      match jsonSkipWs rest with
      | '"' :: r =>
        match parseJsonStringChars [] r with
        | some (s, r2) => parseJsonArrayItems fuel (s :: acc) r2
        | none => none
      | _ => none
    | _ => none

/-- Modelled from the `JSON.parse` builtin (not part of this repository),
restricted to the only shape the source consumes: a JSON array of strings.
On any other JSON input the source either skips the branch (non-array
result) or throws a caught error, leaving the headers object as built so
far; no theorem below exercises those inputs. -/
def parseJsonStringArray (s : String) : Option (List String) :=
  match jsonSkipWs s.data with
  | '[' :: rest =>
    match jsonSkipWs rest with
    | ']' :: rest2 => if (jsonSkipWs rest2).isEmpty then some [] else none
    | '"' :: r =>
      match parseJsonStringChars [] r with
      | some (s0, r2) => parseJsonArrayItems (r2.length + 1) [s0] r2
      | none => none
    | _ => none
  | _ => none

/-- The `x-custom-auth-headers` branch of `getHttpHeaders`: a JSON list of
header names to forward. An array-valued meta-header is coerced to a string
by `JSON.parse` exactly as JS `String()` does (comma-joined). -/
def customMulti (req : ReqHeaders) (headers : HeaderObj) : HeaderObj :=
  match hget req "x-custom-auth-headers" with
  | none => headers
  | some hv =>
    let raw := match hv with
      | HVal.str s => s
      | HVal.arr vs => String.intercalate "," vs
    match parseJsonStringArray raw with
    | some customHeaderNames =>
      customHeaderNames.foldl (fun hs headerName =>
        let lowerCaseHeaderName := jsToLower headerName
        match hget req lowerCaseHeaderName with
        | some (HVal.str v) => objSet hs headerName v
        | some (HVal.arr vs) =>
          match vs.getLast? with
          | some v => objSet hs headerName v
          | none => hs
        | none => hs) headers
    | none => headers

/-- `getHttpHeaders(req)`: the forwardable header set computed from an
inbound request — the main projection loop, then the single-name custom
auth header, then the JSON-list custom auth headers. -/
def getHttpHeaders (req : ReqHeaders) : HeaderObj :=
  customMulti req (customSingle req (req.foldl forwardMain []))

/-! ## `updateHeadersInPlace` -/

/-- `updateHeadersInPlace(currentHeaders, newHeaders)`: captures
`currentHeaders["Accept"]`, deletes every key, `Object.assign`s the new
set (so the object now holds exactly the new entries), then writes the
captured `Accept` back whenever it was truthy (present and non-empty).
The returned list is the final content of the mutated object. -/
def updateHeadersInPlace (currentHeaders newHeaders : HeaderObj) : HeaderObj :=
  match lookupStr currentHeaders "Accept" with
  | some accept => if accept = "" then newHeaders else objSet newHeaders "Accept" accept
  | none => newHeaders

/-! ## `authMiddleware` -/

/-- Constant-time byte comparison, modelled from the documented contract of
`node:crypto`'s `timingSafeEqual` (library code, not part of this
repository): every byte position is visited, with no early exit on a
mismatch. The second component counts the byte comparisons performed. -/
def ctCompare : List Nat → List Nat → Bool × Nat
  | [], [] => (true, 0)
  | x :: xs, y :: ys =>
    let r := ctCompare xs ys
    ((x = y) && r.1, r.2 + 1)
  | _, _ => (false, 0)

/-- The credential-comparison tail of `authMiddleware`, instrumented with a
cost: one unit for the buffer-length comparison, plus one unit per byte
visited by `timingSafeEqual`. A length mismatch rejects before the byte
loop; equal lengths always run the full byte loop. -/
def authTokenCheckInstr (providedToken expectedToken : String) : Bool × Nat :=
  let providedBuffer := utf8Bytes providedToken
  let expectedBuffer := utf8Bytes expectedToken
  if ¬ providedBuffer.length = expectedBuffer.length then (false, 1)
  else ((ctCompare providedBuffer expectedBuffer).1,
        1 + (ctCompare providedBuffer expectedBuffer).2)

/-- `Array.isArray(authHeader) ? authHeader[0] : authHeader` — the raw
`x-mcp-proxy-auth` value as a single string, `none` when absent (an empty
array reads as `undefined`). -/
def extractAuthHeaderValue : Option HVal → Option String
  | none => none
  | some (HVal.str s) => some s
  | some (HVal.arr vs) => vs.head?

/-- Outcome of the auth middleware. -/
inductive AuthResult where
  | proceed
  | unauthorized
deriving DecidableEq

/-- `authMiddleware`: pass-through when auth is disabled; otherwise 401 when
the `x-mcp-proxy-auth` value is falsy or lacks the `"Bearer "` marker, when
the stripped credential's byte length differs from the secret's, or when the
timing-safe byte comparison fails; `next()` otherwise. -/
def authMiddleware (authDisabled : Bool) (sessionToken : String)
    (authHeader : Option HVal) : AuthResult :=
  if authDisabled then AuthResult.proceed
  else
    match extractAuthHeaderValue authHeader with
    | none => AuthResult.unauthorized
    | some authHeaderValue =>
      if authHeaderValue = "" then AuthResult.unauthorized
      else if ¬ jsStartsWith authHeaderValue "Bearer " then AuthResult.unauthorized
      else
        let providedToken := jsDrop authHeaderValue 7
        if (authTokenCheckInstr providedToken sessionToken).1 then AuthResult.proceed
        else AuthResult.unauthorized

/-- The rejection condition exactly as the specification words it: the
dedicated header is absent, or does not carry a well-formed Bearer
credential, or the credential's byte length differs from the secret's, or
its bytes differ from the secret's. (Spec-side definition, to be compared
with `authMiddleware`.) -/
def authRejectSpec (sessionToken : String) (authHeader : Option HVal) : Bool :=
  match extractAuthHeaderValue authHeader with
  | none => true
  | some v =>
    !(jsStartsWith v "Bearer ")
    || !((utf8Bytes (jsDrop v 7)).length = (utf8Bytes sessionToken).length)
    || !(utf8Bytes (jsDrop v 7) = utf8Bytes sessionToken)

/-! ## Route table

Every route registration in the source, in file order, with its middleware
chain. The two global `app.use` middlewares (CORS and the
`Access-Control-Expose-Headers` response header) perform neither origin
validation nor auth and are not guards. -/

/-- A middleware in a route's chain. -/
inductive Guard where
  | origin
  | auth
  | jsonBody
deriving DecidableEq

/-- One express route registration. -/
structure Route where
  method : String
  path : String
  guards : List Guard
deriving DecidableEq

/-- Every externally reachable route of the proxy, with its middleware
chain, transcribed from the `app.get`/`app.post`/`app.delete` calls. -/
def routes : List Route := [
  ⟨"GET", "/mcp", [Guard.origin, Guard.auth]⟩,
  ⟨"POST", "/mcp", [Guard.origin, Guard.auth]⟩,
  ⟨"DELETE", "/mcp", [Guard.origin, Guard.auth]⟩,
  ⟨"GET", "/stdio", [Guard.origin, Guard.auth]⟩,
  ⟨"GET", "/sse", [Guard.origin, Guard.auth]⟩,
  ⟨"POST", "/message", [Guard.origin, Guard.auth]⟩,
  ⟨"GET", "/health", []⟩,
  ⟨"GET", "/fetch-json", [Guard.origin, Guard.auth]⟩,
  ⟨"GET", "/mcp-config", [Guard.origin, Guard.auth]⟩,
  ⟨"GET", "/config", [Guard.origin, Guard.auth]⟩,
  ⟨"GET", "/servers", [Guard.origin]⟩,
  ⟨"GET", "/servers/:serverName/tools", [Guard.origin]⟩,
  ⟨"POST", "/update-mcp-config", [Guard.origin, Guard.auth, Guard.jsonBody]⟩,
  ⟨"POST", "/execute-tool", [Guard.origin, Guard.jsonBody]⟩,
  ⟨"GET", "/logs", [Guard.origin, Guard.auth]⟩,
  ⟨"GET", "/logs/current", []⟩,
  ⟨"GET", "/logs/:filename", []⟩,
  ⟨"DELETE", "/logs/cleanup", [Guard.origin, Guard.auth]⟩,
  ⟨"POST", "/logs/test", [Guard.origin, Guard.auth, Guard.jsonBody]⟩]

/-- On this chain, if the auth middleware is present then the origin
middleware appears strictly before it. -/
def originBeforeAuth (gs : List Guard) : Bool :=
  !(gs.contains Guard.auth) ||
    (gs.takeWhile (fun g => ¬ g = Guard.auth)).contains Guard.origin

/-! ## Session tracking tables and atomic steps

The proxy keeps three module-level maps keyed by session id:
`webAppTransports`, `serverTransports` and `sessionHeaderHolders`. Only the
id sets matter for the tracking invariants. Node's event loop is
single-threaded: the registrations and removals in the source each sit in
one synchronous block (no `await` between the individual `set`/`delete`
calls), so each block is one atomic step as observed by any other request
handler. -/

/-- The id sets of the three session tracking tables. -/
structure Registry where
  web : List String
  server : List String
  bags : List String
deriving DecidableEq

/-- The tables at process start. -/
def emptyRegistry : Registry := ⟨[], [], []⟩

/-- `Map.set(sid, …)` as it affects the id set. -/
def insertId (l : List String) (sid : String) : List String :=
  if sid ∈ l then l else sid :: l

/-- `Map.delete(sid)` as it affects the id set. -/
def removeId (l : List String) (sid : String) : List String :=
  l.filter (fun x => ¬ x = sid)

/-- The synchronous registration block of a new session: the streamable-HTTP
`onsessioninitialized` callback and the `/sse` handler store the id in the
web and server tables and, when a header holder exists, the header-bag
table; the `/stdio` handler is the `hasBag = false` case. -/
def createSession (r : Registry) (sid : String) (hasBag : Bool) : Registry :=
  { web := insertId r.web sid,
    server := insertId r.server sid,
    bags := if hasBag then insertId r.bags sid else r.bags }

/-- The synchronous removal block: `onsessionclosed`, the DELETE `/mcp`
success path and the fatal-stderr path all delete the id from all three
tables. -/
def closeSessionTables (r : Registry) (sid : String) : Registry :=
  { web := removeId r.web sid,
    server := removeId r.server sid,
    bags := removeId r.bags sid }

/-! ## DELETE `/mcp` handler -/

/-- What the DELETE `/mcp` handler sends back. When no session id header is
present the handler body is skipped entirely and nothing is ever written to
the response. (On the 404 path the source additionally runs
`res.status(200).end()` after the 404 has been sent; Node ignores it, the
wire response is the 404.) -/
inductive DeleteOutcome where
  | noResponse
  | ok200
  | notFound404
  | error500
deriving DecidableEq

/-- Observable effects of one DELETE `/mcp` request. -/
structure DeleteResult where
  reg : Registry
  serverTerminated : Bool
  webTransportClosed : Bool
  outcome : DeleteOutcome
  raised : Bool
deriving DecidableEq

/-- The DELETE `/mcp` handler (after the origin and auth middlewares):
with no `mcp-session-id` header the body is skipped and no response is
sent; with an id not in `serverTransports` it answers 404; otherwise it
awaits `serverTransport.terminateSession()` — if that throws, the catch
block answers 500 and no table is touched — then deletes the id from all
three tables and answers 200. The handler never calls
`webAppTransport.close()`, and never lets an exception escape. -/
def deleteMcpHandler (r : Registry) (sessionId : Option String)
    (terminateRaises : Bool) : DeleteResult :=
  match sessionId with
  | none => ⟨r, false, false, DeleteOutcome.noResponse, false⟩
  | some sid =>
    if sid ∈ r.server then
      if terminateRaises then ⟨r, false, false, DeleteOutcome.error500, false⟩
      else ⟨closeSessionTables r sid, true, false, DeleteOutcome.ok200, false⟩
    else ⟨r, false, false, DeleteOutcome.notFound404, false⟩

/-! ## Stdio stderr classifier -/

/-- The non-fatal branch of the `/stdio` stderr data handler: uppercases the
chunk, walks the keyword chain `DEBUG, INFO, NOTICE, WARN, ERROR, CRITICAL,
ALERT, EMERGENCY`, then the three termination signals (which replace the
message), and defaults to `info` with the trimmed chunk. Returns
`(level, message)`. -/
def classifyStderrLine (chunk : String) : String × String :=
  let message := jsTrim chunk
  let ucMsg := jsToUpper chunk
  if jsIncludes ucMsg "DEBUG" then ("debug", message)
  else if jsIncludes ucMsg "INFO" then ("info", message)
  else if jsIncludes ucMsg "NOTICE" then ("notice", message)
  else if jsIncludes ucMsg "WARN" then ("warning", message)
  else if jsIncludes ucMsg "ERROR" then ("error", message)
  else if jsIncludes ucMsg "CRITICAL" then ("critical", message)
  else if jsIncludes ucMsg "ALERT" then ("alert", message)
  else if jsIncludes ucMsg "EMERGENCY" then ("emergency", message)
  else if jsIncludes ucMsg "SIGINT" then ("emergency", "SIGINT received. Server shutdown.")
  else if jsIncludes ucMsg "SIGHUP" then ("emergency", "SIGHUP received. Server shutdown.")
  else if jsIncludes ucMsg "SIGTERM" then ("emergency", "SIGTERM received. Server shutdown.")
  else ("info", message)

/-- The ordered severity keyword table of the specification, with the
substring each severity is keyed on in the source. -/
def severityKeywords : List (String × String) :=
  [("DEBUG", "debug"), ("INFO", "info"), ("NOTICE", "notice"),
   ("WARN", "warning"), ("ERROR", "error"), ("CRITICAL", "critical"),
   ("ALERT", "alert"), ("EMERGENCY", "emergency")]

/-- The three termination-signal phrases and their replacement messages. -/
def signalKeywords : List (String × String) :=
  [("SIGINT", "SIGINT received. Server shutdown."),
   ("SIGHUP", "SIGHUP received. Server shutdown."),
   ("SIGTERM", "SIGTERM received. Server shutdown.")]

/-- First entry of the table whose keyword occurs in `u`. -/
def firstMatch (u : String) : List (String × String) → Option String
  | [] => none
  | (kw, out) :: rest => if jsIncludes u kw then some out else firstMatch u rest

/-- The classifier exactly as the specification describes it: first match
in the ordered severity table, then the special-cased termination signals
with replaced text, then the `info` default. (Spec-side definition, to be
compared with `classifyStderrLine`.) -/
def classifySpec (chunk : String) : String × String :=
  let u := jsToUpper chunk
  match firstMatch u severityKeywords with
  | some lvl => (lvl, jsTrim chunk)
  | none =>
    match firstMatch u signalKeywords with
    | some msg => ("emergency", msg)
    | none => ("info", jsTrim chunk)

/-- Observable effects of one stderr `data` event for a stdio session. -/
structure StderrResult where
  reg : Registry
  level : String
  message : String
  loggerName : String
  webTransportClosed : Bool
  serverTransportClosed : Bool
deriving DecidableEq

/-- The `/stdio` stderr `data` handler: a chunk containing the fatal
startup marker `MODULE_NOT_FOUND` sends an emergency notification from the
`proxy` logger, closes both transports and deletes the session from all
three tables; any other chunk is classified and forwarded as a `stdio`
notification with the session left untouched. -/
def stderrDataHandler (sid : String) (r : Registry) (chunk : String) : StderrResult :=
  if jsIncludes chunk "MODULE_NOT_FOUND" then
    ⟨closeSessionTables r sid, "emergency", "Command not found, transports removed",
      "proxy", true, true⟩
  else
    let lm := classifyStderrLine chunk
    ⟨r, lm.1, lm.2, "stdio", false, false⟩

/-! ## Atomic steps of the tracking tables -/

/-- One atomic (synchronous) mutation of the tracking tables, as performed
by the handlers in the source: session registration (streamable-HTTP, SSE
or stdio), the `onsessionclosed` removal, a DELETE `/mcp` request, or a
fatal stderr chunk. -/
inductive Step : Registry → Registry → Prop
  | create (r : Registry) (sid : String) (hasBag : Bool) :
      Step r (createSession r sid hasBag)
  | sessionClosed (r : Registry) (sid : String) :
      Step r (closeSessionTables r sid)
  | deleteRoute (r : Registry) (sessionId : Option String) (terminateRaises : Bool) :
      Step r (deleteMcpHandler r sessionId terminateRaises).reg
  | stderrFatal (r : Registry) (sid : String) (chunk : String) :
      Step r (stderrDataHandler sid r chunk).reg

/-- The atomic-create invariant: an id is in the web table exactly when it
is in the server table, and the header-bag table only holds ids that are in
the other two. Equivalently: every id is in all of the tables that apply to
it, or in none — never a proper subset. -/
def regInvariant (r : Registry) : Prop :=
  (∀ sid, sid ∈ r.web ↔ sid ∈ r.server) ∧ (∀ sid, sid ∈ r.bags → sid ∈ r.web)

/-! ## Helper lemmas -/

theorem mem_insertId (l : List String) (a sid : String) :
    a ∈ insertId l sid ↔ a = sid ∨ a ∈ l := by
  unfold insertId
  split
  · constructor
    · exact fun h => Or.inr h
    · rintro (rfl | h)
      · assumption
      · assumption
  · exact List.mem_cons

theorem mem_removeId (l : List String) (a sid : String) :
    a ∈ removeId l sid ↔ a ∈ l ∧ ¬ a = sid := by
  simp [removeId]

theorem ctCompare_cost : ∀ (a b : List Nat), a.length = b.length →
    (ctCompare a b).2 = a.length
  | [], [] => fun _ => rfl
  | [], _ :: _ => fun h => by simp at h
  | _ :: _, [] => fun h => by simp at h
  | _ :: xs, _ :: ys => fun h => by
    have ih := ctCompare_cost xs ys (by simpa using h)
    simp [ctCompare, ih]

theorem ctCompare_eq_iff : ∀ (a b : List Nat), a.length = b.length →
    ((ctCompare a b).1 = true ↔ a = b)
  | [], [] => fun _ => by simp [ctCompare]
  | [], _ :: _ => fun h => by simp at h
  | _ :: _, [] => fun h => by simp at h
  | x :: xs, y :: ys => fun h => by
    have ih := ctCompare_eq_iff xs ys (by simpa using h)
    simp [ctCompare, ih]

theorem lookup_map_set (m : HeaderObj) (k v : String) :
    m.any (fun p => p.1 = k) = true →
    lookupStr (m.map (fun p => if p.1 = k then (k, v) else p)) k = some v := by
  induction m with
  | nil => intro h; simp at h
  | cons p m ih =>
    intro h
    by_cases hp : p.1 = k
    · simp [lookupStr, List.find?, hp]
    · have h2 : m.any (fun p => p.1 = k) = true := by
        simpa [List.any_cons, hp] using h
      simpa [lookupStr, List.find?, hp] using ih h2

theorem lookup_append_last (m : HeaderObj) (k v : String) :
    m.any (fun p => p.1 = k) = false →
    lookupStr (m ++ [(k, v)]) k = some v := by
  induction m with
  | nil => intro _; simp [lookupStr, List.find?]
  | cons p m ih =>
    intro h
    have hp : ¬ p.1 = k := by
      intro hk
      simp [List.any_cons, hk] at h
    have h2 : m.any (fun p => p.1 = k) = false := by
      simpa [List.any_cons, hp] using h
    simpa [lookupStr, List.find?, hp] using ih h2

theorem lookup_objSet_self (m : HeaderObj) (k v : String) :
    lookupStr (objSet m k v) k = some v := by
  unfold objSet
  split
  case isTrue h => exact lookup_map_set m k v h
  case isFalse h =>
    refine lookup_append_last m k v ?_
    simp only [Bool.not_eq_true] at h
    exact h

theorem mem_objSet (m : HeaderObj) (k v : String) (p : String × String) :
    p ∈ objSet m k v → p.1 = k ∨ p ∈ m := by
  unfold objSet
  split
  · intro hp
    rcases List.mem_map.mp hp with ⟨q, hq, hfq⟩
    by_cases h1 : q.1 = k
    · left
      rw [← hfq]
      simp [h1]
    · right
      rw [← hfq]
      simpa [h1] using hq
  · intro hp
    rcases List.mem_append.mp hp with h | h
    · right
      exact h
    · left
      simp at h
      rw [h]

/-- The key of any entry added by one step of the main projection loop
passes the exclusion check. -/
theorem forwardMain_excludes (acc : HeaderObj) (kv : String × HVal)
    (hacc : ∀ p ∈ acc, ¬ jsToLower p.1 = "x-mcp-proxy-auth" ∧
      ¬ jsToLower p.1 = "mcp-session-id") :
    ∀ p ∈ forwardMain acc kv, ¬ jsToLower p.1 = "x-mcp-proxy-auth" ∧
      ¬ jsToLower p.1 = "mcp-session-id" := by
  intro p hp
  simp only [forwardMain] at hp
  split at hp
  case isFalse => exact hacc p hp
  case isTrue hguard =>
    split at hp
    case isFalse => exact hacc p hp
    case isTrue hex =>
      split at hp
      case h_1 v hv =>
        rcases mem_objSet _ _ _ _ hp with h | h
        · rw [h]
          exact hex
        · exact hacc p h
      case h_2 vs hv =>
        split at hp
        case h_1 lastValue hl =>
          rcases mem_objSet _ _ _ _ hp with h | h
          · rw [h]
            exact hex
          · exact hacc p h
        case h_2 hl => exact hacc p hp

/-- The whole main projection loop adds no excluded key. -/
theorem foldl_forwardMain_excludes :
    ∀ (l : ReqHeaders) (acc : HeaderObj),
    (∀ p ∈ acc, ¬ jsToLower p.1 = "x-mcp-proxy-auth" ∧
      ¬ jsToLower p.1 = "mcp-session-id") →
    ∀ p ∈ l.foldl forwardMain acc, ¬ jsToLower p.1 = "x-mcp-proxy-auth" ∧
      ¬ jsToLower p.1 = "mcp-session-id"
  | [], _acc => fun hacc => hacc
  | kv :: l, acc => fun hacc =>
    foldl_forwardMain_excludes l (forwardMain acc kv)
      (forwardMain_excludes acc kv hacc)

/-- `createSession` preserves the atomic-create invariant. -/
theorem regInvariant_create (r : Registry) (sid : String) (hasBag : Bool)
    (hr : regInvariant r) : regInvariant (createSession r sid hasBag) := by
  obtain ⟨h1, h2⟩ := hr
  constructor
  · intro a
    simp only [createSession, mem_insertId]
    rw [h1 a]
  · intro a hb
    simp only [createSession] at hb ⊢
    rw [mem_insertId]
    cases hasBag with
    | true =>
      simp only [if_pos rfl] at hb
      rcases (mem_insertId _ _ _).mp hb with h | h
      · exact Or.inl h
      · exact Or.inr (h2 a h)
    | false =>
      simp only [Bool.false_eq_true, if_false] at hb
      exact Or.inr (h2 a hb)

/-- `closeSessionTables` preserves the atomic-create invariant. -/
theorem regInvariant_close (r : Registry) (sid : String)
    (hr : regInvariant r) : regInvariant (closeSessionTables r sid) := by
  obtain ⟨h1, h2⟩ := hr
  constructor
  · intro a
    simp only [closeSessionTables, mem_removeId]
    rw [h1 a]
  · intro a hb
    simp only [closeSessionTables, mem_removeId] at hb ⊢
    exact ⟨h2 a hb.1, hb.2⟩

/-- The enabled-auth middleware rejects exactly when the spec-side rejection
condition holds. -/
theorem authMiddleware_reject_iff (sessionToken : String) (authHeader : Option HVal) :
    authMiddleware false sessionToken authHeader = AuthResult.unauthorized ↔
      authRejectSpec sessionToken authHeader = true := by
  unfold authMiddleware authRejectSpec
  simp only [Bool.false_eq_true, if_false]
  cases hx : extractAuthHeaderValue authHeader with
  | none => simp
  | some v =>
    by_cases h0 : v = ""
    · subst h0
      have hb : jsStartsWith "" "Bearer " = false := by decide
      simp [hb]
    · by_cases hb : jsStartsWith v "Bearer " = true
      · by_cases hlen : (utf8Bytes (jsDrop v 7)).length = (utf8Bytes sessionToken).length
        · have hct := ctCompare_eq_iff _ _ hlen
          by_cases heq : utf8Bytes (jsDrop v 7) = utf8Bytes sessionToken
          · have hres : (ctCompare (utf8Bytes (jsDrop v 7)) (utf8Bytes sessionToken)).1 = true :=
              hct.mpr heq
            have hres2 : (ctCompare (utf8Bytes sessionToken) (utf8Bytes sessionToken)).1 = true :=
              heq ▸ hres
            simp [h0, hb, hlen, heq, authTokenCheckInstr, hres, hres2]
          · have hres : ¬ (ctCompare (utf8Bytes (jsDrop v 7)) (utf8Bytes sessionToken)).1 = true :=
              fun hcontra => heq (hct.mp hcontra)
            simp [h0, hb, hlen, heq, authTokenCheckInstr, hres]
        · simp [h0, hb, hlen, authTokenCheckInstr]
      · simp [h0, hb]

/-- The stderr if-chain equals the ordered keyword-table classifier. -/
theorem classifyStderrLine_eq_spec (chunk : String) :
    classifyStderrLine chunk = classifySpec chunk := by
  unfold classifyStderrLine classifySpec severityKeywords signalKeywords
  simp only [firstMatch]
  by_cases h1 : jsIncludes (jsToUpper chunk) "DEBUG" = true
  · simp [h1]
  by_cases h2 : jsIncludes (jsToUpper chunk) "INFO" = true
  · simp [h1, h2]
  by_cases h3 : jsIncludes (jsToUpper chunk) "NOTICE" = true
  · simp [h1, h2, h3]
  by_cases h4 : jsIncludes (jsToUpper chunk) "WARN" = true
  · simp [h1, h2, h3, h4]
  by_cases h5 : jsIncludes (jsToUpper chunk) "ERROR" = true
  · simp [h1, h2, h3, h4, h5]
  by_cases h6 : jsIncludes (jsToUpper chunk) "CRITICAL" = true
  · simp [h1, h2, h3, h4, h5, h6]
  by_cases h7 : jsIncludes (jsToUpper chunk) "ALERT" = true
  · simp [h1, h2, h3, h4, h5, h6, h7]
  by_cases h8 : jsIncludes (jsToUpper chunk) "EMERGENCY" = true
  · simp [h1, h2, h3, h4, h5, h6, h7, h8]
  by_cases h9 : jsIncludes (jsToUpper chunk) "SIGINT" = true
  · simp [h1, h2, h3, h4, h5, h6, h7, h8, h9]
  by_cases h10 : jsIncludes (jsToUpper chunk) "SIGHUP" = true
  · simp [h1, h2, h3, h4, h5, h6, h7, h8, h9, h10]
  by_cases h11 : jsIncludes (jsToUpper chunk) "SIGTERM" = true
  · simp [h1, h2, h3, h4, h5, h6, h7, h8, h9, h10, h11]
  simp [h1, h2, h3, h4, h5, h6, h7, h8, h9, h10, h11]

/-! ## Claims -/

/-- Claim C1, counterexample to the claim as stated: when the header bag
already holds an `Accept` value and the update's new header set also
supplies one, the update restores the old value — the new value does not
win. -/
theorem spec_c1_cex :
    lookupStr [("Accept", "application/json")] "Accept" = some "application/json" ∧
    lookupStr (updateHeadersInPlace [("Accept", "text/event-stream")]
        [("Accept", "application/json")]) "Accept" = some "text/event-stream" := by
  constructor <;> rfl

/-- Claim C1 as amended: after an in-place header update, a previously set
non-empty `Accept` value is always the value present in the bag, whether or
not the new set supplies one; when there was no previous (non-empty)
`Accept`, the bag's `Accept` is exactly the new set's. -/
theorem spec_c1_update (currentHeaders newHeaders : HeaderObj) (a : String) :
    (lookupStr currentHeaders "Accept" = some a ∧ ¬ a = "" →
      lookupStr (updateHeadersInPlace currentHeaders newHeaders) "Accept" = some a) ∧
    (lookupStr currentHeaders "Accept" = none ∨
        lookupStr currentHeaders "Accept" = some "" →
      lookupStr (updateHeadersInPlace currentHeaders newHeaders) "Accept" =
        lookupStr newHeaders "Accept") := by
  constructor
  · rintro ⟨hcur, hne⟩
    unfold updateHeadersInPlace
    rw [hcur]
    simp only [hne, if_false]
    exact lookup_objSet_self newHeaders "Accept" a
  · rintro (hcur | hcur) <;> unfold updateHeadersInPlace <;> rw [hcur] <;> simp

/-- Witness for C1: a bag holding `Accept: text/event-stream` updated with a
set that lacks `Accept` still holds it afterwards. -/
theorem spec_c1_witness :
    lookupStr (updateHeadersInPlace [("Accept", "text/event-stream")]
      [("mcp-a", "1")]) "Accept" = some "text/event-stream" :=
  (spec_c1_update [("Accept", "text/event-stream")] [("mcp-a", "1")]
    "text/event-stream").1 ⟨by decide, by decide⟩

/-- Claim C2, counterexample to the claim as stated: declaring the proxy's
own auth header through the `x-custom-auth-header` meta-header makes the
projection forward it. -/
theorem spec_c2_cex :
    lookupStr (getHttpHeaders
      [("x-custom-auth-header", HVal.str "x-mcp-proxy-auth"),
       ("x-mcp-proxy-auth", HVal.str "Bearer secret-token")])
      "x-mcp-proxy-auth" = some "Bearer secret-token" := by
  rfl

/-- Claim C2 as amended: the projection never emits the proxy's own auth
header or the proxy session-id header (case-insensitively) provided the
request does not explicitly declare extra headers through the
`x-custom-auth-header` or `x-custom-auth-headers` meta-headers; those
meta-header paths copy whatever header the client names, with no exclusion
check. -/
theorem spec_c2_noforward (req : ReqHeaders)
    (h1 : hget req "x-custom-auth-header" = none)
    (h2 : hget req "x-custom-auth-headers" = none) :
    ∀ p ∈ getHttpHeaders req, ¬ jsToLower p.1 = "x-mcp-proxy-auth" ∧
      ¬ jsToLower p.1 = "mcp-session-id" := by
  unfold getHttpHeaders
  have e2 : ∀ hs : HeaderObj, customMulti req hs = hs := by
    intro hs
    unfold customMulti
    rw [h2]
  have e1 : ∀ hs : HeaderObj, customSingle req hs = hs := by
    intro hs
    unfold customSingle
    rw [h1]
  rw [e2, e1]
  exact foldl_forwardMain_excludes req [] (by intro p hp; simp at hp)

/-- Witness for C2 (amended): a request carrying only `mcp-custom` and no
meta-headers projects a set whose sole key is not an excluded header. -/
theorem spec_c2_witness :
    ¬ jsToLower ("mcp-custom", "1").1 = "x-mcp-proxy-auth" ∧
    ¬ jsToLower ("mcp-custom", "1").1 = "mcp-session-id" :=
  spec_c2_noforward [("mcp-custom", HVal.str "1")] (by decide) (by decide)
    ("mcp-custom", "1") (by decide)

/-- Claim C3 (confirmed): the cost of the auth credential comparison is
independent of the contents of the provided credential — two provided
credentials of the same byte length cost exactly the same, so a rejection's
cost never depends on which byte first differs; moreover when the length
check passes, the byte loop always visits every byte of the secret. -/
theorem spec_c3_cost (sessionToken p1 p2 : String)
    (h : (utf8Bytes p1).length = (utf8Bytes p2).length) :
    (authTokenCheckInstr p1 sessionToken).2 = (authTokenCheckInstr p2 sessionToken).2 ∧
    ((utf8Bytes p1).length = (utf8Bytes sessionToken).length →
      (authTokenCheckInstr p1 sessionToken).2 = 1 + (utf8Bytes sessionToken).length) := by
  constructor
  · unfold authTokenCheckInstr
    by_cases hl : (utf8Bytes p1).length = (utf8Bytes sessionToken).length
    · have hl2 : (utf8Bytes p2).length = (utf8Bytes sessionToken).length := by
        rw [← h]
        exact hl
      have c1 := ctCompare_cost (utf8Bytes p1) (utf8Bytes sessionToken) hl
      have c2 := ctCompare_cost (utf8Bytes p2) (utf8Bytes sessionToken) hl2
      simp [hl, hl2, c1, c2, h]
    · have hl2 : ¬ (utf8Bytes p2).length = (utf8Bytes sessionToken).length := by
        rw [← h]
        exact hl
      simp [hl, hl2]
  · intro hl
    have c1 := ctCompare_cost (utf8Bytes p1) (utf8Bytes sessionToken) hl
    unfold authTokenCheckInstr
    simp [hl, c1]

/-- Witness for C3: `"aa"` differs from the secret `"ab"` in its second
byte, `"ba"` in its first; the comparison costs are equal. -/
theorem spec_c3_witness :
    (authTokenCheckInstr "aa" "ab").2 = (authTokenCheckInstr "ba" "ab").2 :=
  (spec_c3_cost "ab" "aa" "ba" (by decide)).1

/-- Claim C4, counterexample to the claim as stated: the `/health` route is
registered with no middleware at all — neither the origin check nor auth. -/
theorem spec_c4_cex :
    (Route.mk "GET" "/health" []) ∈ routes ∧
    Guard.origin ∉ (Route.mk "GET" "/health" []).guards := by
  decide

/-- Claim C4 as amended: on every route whose chain contains the auth
middleware, the origin-validation middleware appears strictly before it;
and every route other than `/health`, `/logs/current` and `/logs/:filename`
applies the origin-validation check. -/
theorem spec_c4_routes :
    (∀ r, r ∈ routes → originBeforeAuth r.guards = true) ∧
    (∀ r, r ∈ routes → ¬ r.path = "/health" → ¬ r.path = "/logs/current" →
      ¬ r.path = "/logs/:filename" → Guard.origin ∈ r.guards) := by
  decide

/-- Witness for C4 (amended), at the `GET /mcp` route. -/
theorem spec_c4_witness :
    Guard.origin ∈ (Route.mk "GET" "/mcp" [Guard.origin, Guard.auth]).guards :=
  spec_c4_routes.2 (Route.mk "GET" "/mcp" [Guard.origin, Guard.auth])
    (by decide) (by decide) (by decide) (by decide)

/-- Claim C5 (confirmed): with auth disabled every request proceeds; with
auth enabled the middleware answers 401 exactly when the dedicated header
is absent, carries no well-formed Bearer credential, has a credential of
the wrong byte length, or has bytes differing from the secret — and
proceeds exactly otherwise. -/
theorem spec_c5_auth (sessionToken : String) (authHeader : Option HVal) :
    authMiddleware true sessionToken authHeader = AuthResult.proceed ∧
    (authMiddleware false sessionToken authHeader = AuthResult.unauthorized ↔
      authRejectSpec sessionToken authHeader = true) ∧
    (authMiddleware false sessionToken authHeader = AuthResult.proceed ↔
      authRejectSpec sessionToken authHeader = false) := by
  refine ⟨rfl, authMiddleware_reject_iff sessionToken authHeader, ?_⟩
  constructor
  · intro hp
    cases hr : authRejectSpec sessionToken authHeader with
    | false => rfl
    | true =>
      have := (authMiddleware_reject_iff sessionToken authHeader).mpr hr
      rw [hp] at this
      exact absurd this (by intro hcontra; cases hcontra)
  · intro hr
    cases hm : authMiddleware false sessionToken authHeader with
    | proceed => rfl
    | unauthorized =>
      have := (authMiddleware_reject_iff sessionToken authHeader).mp hm
      rw [hr] at this
      cases this

/-- Claim C6, counterexample to the claim as stated: a whitespace-padded
line matching no keyword is classified `info` but its text is trimmed, not
forwarded verbatim. -/
theorem spec_c6_cex :
    (stderrDataHandler "s" emptyRegistry "  hello x  ").level = "info" ∧
    ¬ (stderrDataHandler "s" emptyRegistry "  hello x  ").message = "  hello x  " ∧
    (stderrDataHandler "s" emptyRegistry "  hello x  ").message = "hello x" := by
  refine ⟨rfl, by decide, rfl⟩

/-- Claim C6 as amended: every non-fatal stderr chunk is classified by
case-insensitive first match over the ordered keyword table (debug, info,
notice, warning, error, critical, alert, emergency — the warning severity
keyed on the substring `WARN`), then the three termination signals with
replaced message text, then the `info` default; the forwarded message is
the chunk with surrounding whitespace trimmed (otherwise verbatim), the
notification comes from the `stdio` logger and the session's tables are
untouched. -/
theorem spec_c6_classifier (sid : String) (r : Registry) (chunk : String)
    (h : jsIncludes chunk "MODULE_NOT_FOUND" = false) :
    (stderrDataHandler sid r chunk).level = (classifySpec chunk).1 ∧
    (stderrDataHandler sid r chunk).message = (classifySpec chunk).2 ∧
    (stderrDataHandler sid r chunk).loggerName = "stdio" ∧
    (stderrDataHandler sid r chunk).reg = r := by
  have hc := classifyStderrLine_eq_spec chunk
  unfold stderrDataHandler
  simp [h, hc]

/-- Witness for C6 (amended), at the spec's three examples: `ERROR: boom`
classifies as `error`, `SIGTERM received` as `emergency` with the replaced
text, and `hello world` as `info` forwarded unchanged. -/
theorem spec_c6_witness :
    (stderrDataHandler "s" emptyRegistry "ERROR: boom").level = "error" ∧
    (stderrDataHandler "s" emptyRegistry "SIGTERM received").level = "emergency" ∧
    (stderrDataHandler "s" emptyRegistry "SIGTERM received").message =
      "SIGTERM received. Server shutdown." ∧
    (stderrDataHandler "s" emptyRegistry "hello world").level = "info" ∧
    (stderrDataHandler "s" emptyRegistry "hello world").message = "hello world" :=
  ⟨((spec_c6_classifier "s" emptyRegistry "ERROR: boom" (by decide)).1).trans (by decide),
   ((spec_c6_classifier "s" emptyRegistry "SIGTERM received" (by decide)).1).trans (by decide),
   ((spec_c6_classifier "s" emptyRegistry "SIGTERM received" (by decide)).2.1).trans (by decide),
   ((spec_c6_classifier "s" emptyRegistry "hello world" (by decide)).1).trans (by decide),
   ((spec_c6_classifier "s" emptyRegistry "hello world" (by decide)).2.1).trans (by decide)⟩

/-- Claim C7 (confirmed): the empty table state satisfies the atomic-create
invariant, and every atomic step of the source — session registration,
`onsessionclosed` removal, a DELETE `/mcp` request, a fatal stderr chunk —
preserves it: a session id is in all tracking tables that apply to it or in
none, at every observable point. -/
theorem spec_c7_atomic :
    regInvariant emptyRegistry ∧
    ∀ r r2, regInvariant r → Step r r2 → regInvariant r2 := by
  constructor
  · constructor
    · intro sid
      simp [emptyRegistry]
    · intro sid hb
      simp [emptyRegistry] at hb
  · rintro r r2 hr hstep
    cases hstep with
    | create sid hasBag => exact regInvariant_create r sid hasBag hr
    | sessionClosed sid => exact regInvariant_close r sid hr
    | deleteRoute sessionId terminateRaises =>
      cases sessionId with
      | none => exact hr
      | some sid =>
        simp only [deleteMcpHandler]
        split
        · split
          · exact hr
          · exact regInvariant_close r sid hr
        · exact hr
    | stderrFatal sid chunk =>
      unfold stderrDataHandler
      split
      · exact regInvariant_close r sid hr
      · exact hr

/-- Witness for C7: registering a session with a header bag in the empty
registry yields a state satisfying the invariant. -/
theorem spec_c7_witness :
    regInvariant (createSession emptyRegistry "sid-1" true) :=
  spec_c7_atomic.2 emptyRegistry (createSession emptyRegistry "sid-1" true)
    spec_c7_atomic.1 (Step.create emptyRegistry "sid-1" true)

/-- Claim C8, counterexample to the claim as stated: a successful session
termination via DELETE `/mcp` never closes the web-facing transport — the
handler only terminates the upstream transport's session and drops the
tables. -/
theorem spec_c8_cex :
    (deleteMcpHandler ⟨["s"], ["s"], ["s"]⟩ (some "s") false).outcome =
      DeleteOutcome.ok200 ∧
    (deleteMcpHandler ⟨["s"], ["s"], ["s"]⟩ (some "s") false).serverTerminated = true ∧
    (deleteMcpHandler ⟨["s"], ["s"], ["s"]⟩ (some "s") false).webTransportClosed = false := by
  decide

/-- Claim C8 as amended: closing a registered session removes its id from
every tracking table exactly once and terminates the upstream transport's
session (the handler never raises, catching a throwing termination with a
500 and the web-facing transport is not closed by this handler); repeating
the close afterwards is a no-op that answers 404, touches no table, calls
no transport and raises nothing. -/
theorem spec_c8_close (r : Registry) (sid : String) (h : sid ∈ r.server) :
    (deleteMcpHandler r (some sid) false).outcome = DeleteOutcome.ok200 ∧
    (deleteMcpHandler r (some sid) false).raised = false ∧
    (deleteMcpHandler r (some sid) false).serverTerminated = true ∧
    sid ∉ (deleteMcpHandler r (some sid) false).reg.web ∧
    sid ∉ (deleteMcpHandler r (some sid) false).reg.server ∧
    sid ∉ (deleteMcpHandler r (some sid) false).reg.bags ∧
    (∀ terminateRaises, deleteMcpHandler (deleteMcpHandler r (some sid) false).reg
      (some sid) terminateRaises =
      ⟨(deleteMcpHandler r (some sid) false).reg, false, false,
        DeleteOutcome.notFound404, false⟩) := by
  have hred : deleteMcpHandler r (some sid) false =
      ⟨closeSessionTables r sid, true, false, DeleteOutcome.ok200, false⟩ := by
    unfold deleteMcpHandler
    simp [h]
  rw [hred]
  have hgone : sid ∉ (closeSessionTables r sid).server := by
    simp [closeSessionTables, mem_removeId]
  refine ⟨rfl, rfl, rfl, ?_, ?_, ?_, ?_⟩
  · simp [closeSessionTables, mem_removeId]
  · exact hgone
  · simp [closeSessionTables, mem_removeId]
  · intro terminateRaises
    unfold deleteMcpHandler
    simp [hgone]

/-- Witness for C8 (amended): closing the only session of a concrete
registry empties its server table and answers 200. -/
theorem spec_c8_witness :
    (deleteMcpHandler ⟨["a"], ["a"], []⟩ (some "a") false).outcome =
      DeleteOutcome.ok200 ∧
    "a" ∉ (deleteMcpHandler ⟨["a"], ["a"], []⟩ (some "a") false).reg.server :=
  ⟨(spec_c8_close ⟨["a"], ["a"], []⟩ "a" (by decide)).1,
   (spec_c8_close ⟨["a"], ["a"], []⟩ "a" (by decide)).2.2.2.2.1⟩

/-- Claim C9 (confirmed): any stderr chunk carrying the fatal-startup
marker makes the handler emit an emergency notification from the proxy
logger, close both transports and delete the session id from all three
tracking tables — no half-open session remains. -/
theorem spec_c9_fatal (sid : String) (r : Registry) (chunk : String)
    (h : jsIncludes chunk "MODULE_NOT_FOUND" = true) :
    (stderrDataHandler sid r chunk).level = "emergency" ∧
    (stderrDataHandler sid r chunk).message = "Command not found, transports removed" ∧
    (stderrDataHandler sid r chunk).loggerName = "proxy" ∧
    (stderrDataHandler sid r chunk).webTransportClosed = true ∧
    (stderrDataHandler sid r chunk).serverTransportClosed = true ∧
    sid ∉ (stderrDataHandler sid r chunk).reg.web ∧
    sid ∉ (stderrDataHandler sid r chunk).reg.server ∧
    sid ∉ (stderrDataHandler sid r chunk).reg.bags := by
  unfold stderrDataHandler
  simp [h, closeSessionTables, mem_removeId]

/-- Witness for C9, at a concrete fatal chunk and a registry holding the
session in all three tables. -/
theorem spec_c9_witness :
    (stderrDataHandler "s" ⟨["s"], ["s"], ["s"]⟩
      "Error: Cannot find module (MODULE_NOT_FOUND)").level = "emergency" ∧
    "s" ∉ (stderrDataHandler "s" ⟨["s"], ["s"], ["s"]⟩
      "Error: Cannot find module (MODULE_NOT_FOUND)").reg.server :=
  ⟨(spec_c9_fatal "s" ⟨["s"], ["s"], ["s"]⟩
      "Error: Cannot find module (MODULE_NOT_FOUND)" (by decide)).1,
   (spec_c9_fatal "s" ⟨["s"], ["s"], ["s"]⟩
      "Error: Cannot find module (MODULE_NOT_FOUND)" (by decide)).2.2.2.2.2.2.1⟩

/-- Claim C10 (confirmed): a DELETE `/mcp` request that passes the
middlewares but carries no `mcp-session-id` header is left entirely
unanswered — the handler sends no status code, terminates nothing, closes
nothing, touches no table and raises nothing. -/
theorem spec_c10_nores (r : Registry) (terminateRaises : Bool) :
    deleteMcpHandler r none terminateRaises =
      ⟨r, false, false, DeleteOutcome.noResponse, false⟩ :=
  rfl
